import Mathlib

/-!
A shallow embedding of the observation-store and site-validator core of
`ebird_modu_sightings.py` (class `EbirdManager`).  Python dicts that map
checklist ids to *object references* are modelled with an explicit object
heap (`Store.heap`); `self.features` and `self.geo_json['features']` hold
object ids into that heap, so the aliasing between the two (and its loss
when a list slot is replaced by a freshly created feature) is represented
faithfully.  Counts are `Int` (the code's `-1` sentinel in `indiv` needs a
signed type); coordinates are carried opaquely as `Int` pairs, since the
code never computes with them (they are only constructed and compared).
The geometric `within` test of geopandas is an abstract boolean collaborator
passed as a function argument.  Fallible methods return `Except PyErr`.
-/

namespace EbirdManager

/-- Python exceptions the embedded methods can raise. -/
inductive PyErr where
  | ioError
  | assertionError
  | attributeError
  | keyError
  | valueError
  deriving DecidableEq, Repr

/-- One geojson feature, as built by `_create_feature_from_observation`:
a point geometry `(lng, lat)` plus the property bag. -/
structure Feature where
  lng : Int
  lat : Int
  ebird_locid : String
  observation_date : String
  individuals : Int
  ebird_valid : Bool
  ebird_reviewed : Bool
  locationPrivate : Bool
  ebird_subId : String
  ebird_location_name : String
  deriving DecidableEq, Repr

/-- Default feature for total `getD` indexing (never reached on the inputs
the theorems use; its count is `0` so that a dangling object id never fakes
the `-1` not-found sentinel of `indiv`). -/
def defaultFeature : Feature :=
  { lng := 0, lat := 0, ebird_locid := "", observation_date := "",
    individuals := 0, ebird_valid := false, ebird_reviewed := false,
    locationPrivate := false, ebird_subId := "", ebird_location_name := "" }

/-- One raw observation tuple from the ebird collaborator
(`get_species_observations`). -/
structure Obs where
  subId : String
  locId : String
  locName : String
  lng : Int
  lat : Int
  obsDt : String
  howMany : Int
  obsValid : Bool
  obsReviewed : Bool
  locationPrivate : Bool
  deriving DecidableEq, Repr

/-- `EbirdManager._create_feature_from_observation`. -/
def create_feature_from_observation (o : Obs) : Feature :=
  { lng := o.lng, lat := o.lat, ebird_locid := o.locId,
    observation_date := o.obsDt, individuals := o.howMany,
    ebird_valid := o.obsValid, ebird_reviewed := o.obsReviewed,
    locationPrivate := o.locationPrivate, ebird_subId := o.subId,
    ebird_location_name := o.locName }

/-- Loop of `EbirdManager.dedupe`, faithful to the source: `dups` is the
Python dict from subid to the list of indices of its occurrences, `deduped`
the accumulated result; a later occurrence is compared against the feature
at the *first* recorded index (`dups[subid][0]`). -/
def dedupe_go (all : List Feature) :
    List Feature → Nat → List (String × List Nat) → List Feature → List Feature
  | [], _, _, deduped => deduped
  | f :: rest, i, dups, deduped =>
    match dups.lookup f.ebird_subId with
    | some idxs =>
      if f == all.getD (idxs.headD 0) defaultFeature then
        dedupe_go all rest (i + 1)
          (dups.map (fun p => if p.1 == f.ebird_subId then (p.1, p.2 ++ [i]) else p)) deduped
      else
        dedupe_go all rest (i + 1) dups deduped
    | none =>
      dedupe_go all rest (i + 1) (dups ++ [(f.ebird_subId, [i])]) (deduped ++ [f])

/-- `EbirdManager.dedupe`: deduplicates the geojson feature list by
`ebird_subId`. -/
def dedupe (feats : List Feature) : List Feature :=
  dedupe_go feats feats 0 [] []

/-- Modelled from the spec's words (the refinement target `dedupe` is
compared with): keep, for each distinct `checklistId`, the first occurrence
encountered in storage order. -/
def keepFirstBySubId_go : List String → List Feature → List Feature
  | _, [] => []
  | seen, f :: rest =>
    if f.ebird_subId ∈ seen then keepFirstBySubId_go seen rest
    else f :: keepFirstBySubId_go (f.ebird_subId :: seen) rest

/-- Modelled from the spec's words: the first occurrence of each distinct
`checklistId`, in storage order. -/
def keepFirstBySubId (feats : List Feature) : List Feature :=
  keepFirstBySubId_go [] feats

/-- The parsed content of a geojson document, with the structural facts
`_is_feature_collection` inspects (`'type' in keys`, `'features' in keys`,
the value of `'type'`, and whether the features container supports
`append`). -/
structure GJson where
  hasType : Bool
  typeVal : String
  hasFeatures : Bool
  appendable : Bool
  feats : List Feature
  deriving DecidableEq, Repr

/-- `EbirdManager._is_feature_collection`; the source returns `None`
(falsy) when either key is missing, which `load` only truth-tests, so the
embedding returns `false` there. -/
def is_feature_collection (g : GJson) : Bool :=
  g.hasType && g.hasFeatures && (g.typeVal == "FeatureCollection" && g.appendable)

/-- Log events the store emits that carry claim-relevant data.  The drift
warning records the arguments in source order: the message text interpolates
`obs['howMany']` first and the previously stored `subid_count` second. -/
inductive SLog where
  | driftWarning (subid : String) (pulledCount storedCount : Int)
  deriving DecidableEq, Repr

/-- The mutable state of an `EbirdManager` instance that the observation
store operates on.  `heap` is the object store; `geoFeatures` is
`self.geo_json['features']` as a list of object ids; `features` is the
insertion-ordered dict `self.features` from subid to object id; `file` is
the content of the configured geojson path (`none` when the file does not
exist). -/
structure Store where
  heap : List Feature
  geoFeatures : List Nat
  features : List (String × Nat)
  file : Option GJson
  logs : List SLog
  deriving DecidableEq, Repr

/-- Dereference an object id. -/
def deref (st : Store) (oid : Nat) : Feature :=
  st.heap.getD oid defaultFeature

/-- `EbirdManager.indiv`: the stored individual count for a checklist id,
`-1` if the id is not in the feature hash. -/
def indiv (st : Store) (subid : String) : Int :=
  match st.features.lookup subid with
  | some oid => (deref st oid).individuals
  | none => -1

/-- `EbirdManager.set_individuals`: mutates the object the feature hash
maps `subid` to (the mutation is visible through every alias of that
object).  A missing key would be Python's `KeyError`; the only caller
(`pull_new_entries`) models that error itself before calling. -/
def set_individuals (st : Store) (subid : String) (newCount : Int) : Store :=
  match st.features.lookup subid with
  | some oid =>
    { st with heap := st.heap.set oid { deref st oid with individuals := newCount } }
  | none => st

/-- `EbirdManager.checklists_in_geojson`. -/
def checklists_in_geojson (st : Store) : List String :=
  st.geoFeatures.map (fun oid => (deref st oid).ebird_subId)

/-- Python dict assignment `d[k] = v`: overwrite in place when the key
exists, append otherwise. -/
def dictInsert (d : List (String × Nat)) (k : String) (v : Nat) : List (String × Nat) :=
  if (d.lookup k).isSome then d.map (fun p => if p.1 == k then (p.1, v) else p)
  else d ++ [(k, v)]

/-- Loop of `EbirdManager._setup_features`: for every feature of the
current geojson, assert that its subid is not yet in the feature hash
(`assert(self.indiv(subid) == -1)`) and insert it.  Note the hash is *not*
cleared first. -/
def setup_features_go : List Nat → Store → Except PyErr Store
  | [], st => .ok st
  | oid :: rest, st =>
    if indiv st (deref st oid).ebird_subId == -1 then
      setup_features_go rest
        { st with features := dictInsert st.features (deref st oid).ebird_subId oid }
    else
      .error .assertionError

/-- `EbirdManager._setup_features`. -/
def setup_features (st : Store) : Except PyErr Store :=
  setup_features_go st.geoFeatures st

/-- `EbirdManager.load`, with the parsed document supplied by the file
collaborator.  On the tag check passing, `self.geo_json = gjson` installs
freshly parsed feature objects (fresh heap cells) and the geojson feature
list is replaced wholesale; `self.features` is left as it was and only
extended by `_setup_features`.  A document failing the tag check raises
`IOError`. -/
def load (st : Store) (g : GJson) : Except PyErr Store :=
  if is_feature_collection g then
    setup_features
      { st with heap := st.heap ++ g.feats,
                geoFeatures := List.range' st.heap.length g.feats.length }
  else
    .error .ioError

/-- `EbirdManager.save`: writes the current geojson (dereferenced feature
values) to the configured path, but only if the file already exists. -/
def save (st : Store) : Store :=
  match st.file with
  | some _ =>
    let written : GJson :=
      { hasType := true, typeVal := "FeatureCollection", hasFeatures := true,
        appendable := true, feats := st.geoFeatures.map (deref st) }
    { st with file := some written }
  | none => st

/-- Inner loop of `EbirdManager._pull_species_observations` over one
species code's response: lump an observation whose `subId` was already seen
by adding its `howMany` into the existing entry and counting a cross, else
record it. -/
def lump_go : List Obs → List (String × Obs) → Nat → List (String × Obs) × Nat
  | [], acc, c => (acc, c)
  | o :: rest, acc, c =>
    if (acc.lookup o.subId).isSome then
      lump_go rest
        (acc.map (fun p =>
          if p.1 == o.subId then (p.1, { p.2 with howMany := p.2.howMany + o.howMany }) else p))
        (c + 1)
    else
      lump_go rest (acc ++ [(o.subId, o)]) c

/-- Outer loop of `_pull_species_observations`: the observation dict
accumulates across species codes, the cross count is reset to `0` per
species code and reported per code. -/
def pull_species_observations_go (resp : String → List Obs) :
    List String → List (String × Obs) → List (String × Nat)
    → List (String × Obs) × List (String × Nat)
  | [], acc, crosses => (acc, crosses)
  | code :: rest, acc, crosses =>
    let r := lump_go (resp code) acc 0
    pull_species_observations_go resp rest r.1 (crosses ++ [(code, r.2)])

/-- `EbirdManager._pull_species_observations`, with the ebird API modelled
as a collaborator `resp` from species code to observation list (the region
code and api key are fixed inside `resp`).  Returns the merged per-checklist
observation dict together with the per-species-code lumping cross counts. -/
def pull_species_observations (resp : String → List Obs) (speciesCodes : List String) :
    List (String × Obs) × List (String × Nat) :=
  pull_species_observations_go resp speciesCodes [] []

/-- Python's `list.index`: index of the first occurrence (callers only use
it on members, where `IndexError` cannot occur). -/
def idx_of (s : String) : List String → Nat
  | [] => 0
  | t :: rest => if t == s then 0 else idx_of s rest + 1

/-- Merge loop of `EbirdManager.pull_new_entries` over the per-checklist
observation dict.  `gjentries` is the checklist list computed once before
the loop.  A new checklist appends a fresh feature shared by list and hash;
a present checklist with a changed count logs the drift warning, calls
`set_individuals(subid, subid_count)` with the *stored* count, asserts the
slot's subid and replaces the slot with a freshly created feature (the
hash keeps pointing at the old object). -/
def merge_entries_go (gjentries : List String) :
    List (String × Obs) → Store → Nat → Except PyErr (Store × Nat)
  | [], st, n => .ok (st, n)
  | (subid, obs) :: rest, st, n =>
    let subid_count := indiv st subid
    if gjentries.contains subid then
      if subid_count == obs.howMany then
        merge_entries_go gjentries rest st n
      else
        match st.features.lookup subid with
        | none => .error .keyError
        | some _ =>
          let st1 := set_individuals
            { st with logs := st.logs ++ [SLog.driftWarning subid obs.howMany subid_count] }
            subid subid_count
          let index := idx_of subid gjentries
          if (deref st1 (st1.geoFeatures.getD index 0)).ebird_subId == subid then
            merge_entries_go gjentries rest
              { st1 with heap := st1.heap ++ [create_feature_from_observation obs],
                         geoFeatures := st1.geoFeatures.set index st1.heap.length } n
          else
            .error .assertionError
    else
      merge_entries_go gjentries rest
        { st with heap := st.heap ++ [create_feature_from_observation obs],
                  geoFeatures := st.geoFeatures ++ [st.heap.length],
                  features := dictInsert st.features subid st.heap.length } (n + 1)

/-- `EbirdManager.pull_new_entries`: raises `AttributeError` when no
species codes are supplied (and none configured); loads the configured file
when it exists; pulls and lumps the observations; merges them against the
store; optionally saves.  Returns the store and the new-entry count. -/
def pull_new_entries (st : Store) (resp : String → List Obs)
    (speciesCodes : List String) (saveFlag : Bool) : Except PyErr (Store × Nat) :=
  if speciesCodes.isEmpty then .error .attributeError
  else
    match (match st.file with
           | some g => load st g
           | none => .ok st) with
    | .error e => .error e
    | .ok st1 =>
      let species_obs := (pull_species_observations resp speciesCodes).1
      let gjentries := checklists_in_geojson st1
      match merge_entries_go gjentries species_obs st1 0 with
      | .error e => .error e
      | .ok (st2, newCount) => .ok (if saveFlag then save st2 else st2, newCount)

/-- The checklist-index consistency invariant of the spec's SurveyJoin:
no two checklist ids share a slot (the slot subids are pairwise distinct),
every slot's checklist id is represented exactly once in the index, every
indexed id has a slot, and for every checklist id the indexed record equals
the sequence entry at its slot. -/
def index_consistent (st : Store) : Bool :=
  let cks := checklists_in_geojson st
  decide cks.Nodup
    && st.features.all (fun p => cks.contains p.1)
    && cks.all (fun s => (st.features.filter (fun p => p.1 == s)).length == 1)
    && (List.range cks.length).all (fun i =>
         match st.features.lookup (cks.getD i "") with
         | some oid => deref st oid == deref st (st.geoFeatures.getD i 0)
         | none => false)

/-- A survey-site row: `GlobalID`, `NAME`, `AREA` (nullable columns are
`Option`), and an opaque geometry id interpreted by the `within`
collaborator. -/
structure SurveySite where
  globalId : Option String
  name : String
  area : Option String
  geom : Nat
  deriving DecidableEq, Repr

/-- A scouting-area row: the `id` column and an opaque geometry id. -/
structure ScoutingArea where
  id : String
  geom : Nat
  deriving DecidableEq, Repr

def defaultSite : SurveySite :=
  { globalId := none, name := "", area := none, geom := 0 }

def defaultArea : ScoutingArea := { id := "", geom := 0 }

/-- Python `str(x)` on a nullable string value (`str(None) = "None"`). -/
def pyStr (o : Option String) : String :=
  match o with
  | none => "None"
  | some s => s

/-- Python truthiness of a nullable string (`None` and `""` are falsy). -/
def pyTruth (o : Option String) : Bool :=
  match o with
  | none => false
  | some s => !(s == "")

/-- Python `str.upper()` (character-wise upper-casing; the only use is on
`uuid.uuid4()` strings, whose alphabet is ASCII hex digits and dashes). -/
def pyUpper (s : String) : String :=
  String.mk (s.data.map Char.toUpper)

/-- Log events of the global-id operations; the overwrite event mirrors the
`"Overwritting GlobalID ... from {old_id} to {new_id}"` info message. -/
inductive VLog where
  | overwroteGlobalId (name oldId newId : String)
  | warnGlobalIdExists (name : String)
  | addedGlobalId (name newId : String)
  deriving DecidableEq, Repr

/-- `EbirdManager.find_scouting_area_for_site`: select the survey-site rows
matching the global id and scan the scouting areas in index order for the
first one whose polygon the site's geometry is `within`, returning its
`id`, or `None` when no area contains it.  When the selection is not a
single row, `_global_id_is_unique` raises `IndexError`, which the method
catches and logs; the subsequent truth test of the element-wise `within`
series then raises (modelled as a single error value).  `w` is the
geometric containment collaborator. -/
def find_scouting_area_for_site (w : Nat → Nat → Bool) (sites : List SurveySite)
    (areas : List ScoutingArea) (gid : Option String) : Except PyErr (Option String) :=
  match sites.filter (fun s => s.globalId == gid) with
  | [e] => .ok ((areas.find? (fun a => w e.geom a.geom)).map ScoutingArea.id)
  | _ => .error .valueError

/-- `EbirdManager.verify_trapping_area` on the row at `ind`: compare
`str(row.AREA)` with `str(found_area)` when `row.AREA` is truthy, else fail
when `found_area` is truthy; failing paths store `str(found_area)` into the
trapping-area cache.  Returns the pass flag and the cache after the call. -/
def verify_trapping_area (w : Nat → Nat → Bool) (sites : List SurveySite)
    (areas : List ScoutingArea) (cache : Option String) (ind : Nat) :
    Except PyErr (Bool × Option String) :=
  let row := sites.getD ind defaultSite
  match find_scouting_area_for_site w sites areas row.globalId with
  | .error e => .error e
  | .ok found =>
    if pyTruth row.area then
      if pyStr row.area == pyStr found then .ok (true, cache)
      else .ok (false, some (pyStr found))
    else
      if pyTruth found then .ok (false, some (pyStr found))
      else .ok (true, cache)

/-- Loop of `EbirdManager.correct_trapping_areas`: verify each row in index
order and, on failure, overwrite its `AREA` with the cache the verification
just filled. -/
def correct_trapping_areas_go (w : Nat → Nat → Bool) (areas : List ScoutingArea) :
    List Nat → List SurveySite → Option String
    → Except PyErr (List SurveySite × Option String)
  | [], sites, cache => .ok (sites, cache)
  | ind :: rest, sites, cache =>
    match verify_trapping_area w sites areas cache ind with
    | .error e => .error e
    | .ok (true, cache1) => correct_trapping_areas_go w areas rest sites cache1
    | .ok (false, cache1) =>
      correct_trapping_areas_go w areas rest
        (sites.set ind { sites.getD ind defaultSite with area := cache1 }) cache1

/-- `EbirdManager.correct_trapping_areas`. -/
def correct_trapping_areas (w : Nat → Nat → Bool) (sites : List SurveySite)
    (areas : List ScoutingArea) (cache : Option String) :
    Except PyErr (List SurveySite × Option String) :=
  correct_trapping_areas_go w areas (List.range sites.length) sites cache

/-- `EbirdManager.add_global_id` on the row at `ind`; the fresh uuid comes
from the caller as a collaborator value and is case-normalized and
bracket-delimited exactly as in the source.  Note the overwrite branch logs
the replacement but contains no assignment to the `GlobalID` column. -/
def add_global_id (sites : List SurveySite) (ind : Nat) (overwrite : Bool)
    (freshUuid : String) : List SurveySite × List VLog :=
  let row := sites.getD ind defaultSite
  if row.globalId.isSome then
    if overwrite then
      (sites,
       [VLog.overwroteGlobalId row.name (pyStr row.globalId)
          ("\x7b" ++ pyUpper freshUuid ++ "\x7d")])
    else
      (sites, [VLog.warnGlobalIdExists row.name])
  else
    (sites.set ind { row with globalId := some ("\x7b" ++ pyUpper freshUuid ++ "\x7d") },
     [VLog.addedGlobalId row.name ("\x7b" ++ pyUpper freshUuid ++ "\x7d")])

/-- Projection of a survey-site row to the components
`find_scouting_area_for_site` reads (`GlobalID` and the geometry);
area corrections leave it unchanged. -/
def siteKey (s : SurveySite) : Option String × Nat :=
  (s.globalId, s.geom)

/-! Concrete inputs used by the evaluation theorems. -/

/-- `A(id=1,x)` of the spec's deduplication example. -/
def featA : Feature :=
  { defaultFeature with ebird_subId := "S000000001", individuals := 2, ebird_locid := "L1" }

/-- `B(id=2,y)` of the spec's deduplication example. -/
def featB : Feature :=
  { defaultFeature with ebird_subId := "S000000002", individuals := 4, ebird_locid := "L2" }

/-- `C(id=1,z)` with `z` differing from `x`: same checklist id as `featA`,
different content. -/
def featConflict : Feature :=
  { defaultFeature with ebird_subId := "S000000001", individuals := 3, ebird_locid := "L1" }

/-- A pulled observation for checklist `S000000001` with count 8. -/
def obsS1n8 : Obs :=
  { subId := "S000000001", locId := "L00001", locName := "Lake Apopka", lng := -81,
    lat := 28, obsDt := "2021-05-01", howMany := 8, obsValid := true,
    obsReviewed := false, locationPrivate := false }

/-- The same checklist previously stored with count 5. -/
def obsS1n5 : Obs := { obsS1n8 with howMany := 5 }

/-- A second checklist, count 3. -/
def obsS2n3 : Obs := { obsS1n8 with subId := "S000000002", locId := "L00002", howMany := 3 }

/-- A persisted feature collection holding the single checklist
`S000000001` with count 5. -/
def fileS1 : GJson :=
  { hasType := true, typeVal := "FeatureCollection", hasFeatures := true,
    appendable := true, feats := [create_feature_from_observation obsS1n5] }

/-- A fresh manager whose configured geojson file exists with `fileS1`. -/
def storeWithFile : Store :=
  { heap := [], geoFeatures := [], features := [], file := some fileS1, logs := [] }

/-- A fresh manager whose configured geojson file does not exist. -/
def storeNoFile : Store :=
  { heap := [], geoFeatures := [], features := [], file := none, logs := [] }

/-- A source response that re-pulls checklist `S000000001` with count 8. -/
def respDrift : String → List Obs :=
  fun c => if c == "motduc" then [obsS1n8] else []

/-- A source response identical across calls: the stored checklist with its
stored count plus one new checklist. -/
def respSame : String → List Obs :=
  fun c => if c == "motduc" then [obsS1n5] else if c == "x00422" then [obsS2n3] else []

/-- A source response containing only the new checklist `S000000002`. -/
def respS2 : String → List Obs :=
  fun c => if c == "motduc" then [obsS2n3] else []

/-- Two observations of the same checklist under two species codes with
counts 3 and 4 (the spec's lumping example). -/
def obsS1n3 : Obs := { obsS1n8 with howMany := 3 }

def obsHybrid4 : Obs :=
  { obsS1n8 with howMany := 4, locId := "L00003" }

/-- A survey site that already carries a global id. -/
def siteWithGid : SurveySite :=
  { globalId := some "\x7bOLD-ID\x7d", name := "Park A", area := some "south", geom := 7 }

/-- A survey site labelled `south` whose geometry is the opaque id 5. -/
def siteSouth : SurveySite :=
  { globalId := some "G1", name := "Park B", area := some "south", geom := 5 }

/-- The scouting area `north` (opaque geometry id 10). -/
def areaNorth : ScoutingArea := { id := "north", geom := 10 }

/-- The scouting area `south` (opaque geometry id 20). -/
def areaSouth : ScoutingArea := { id := "south", geom := 20 }

/-- A containment collaborator under which exactly `siteSouth`'s geometry
lies within exactly `areaNorth`'s polygon. -/
def wNorthOnly : Nat → Nat → Bool :=
  fun sg ag => sg == 5 && ag == 10

/-! Helper lemmas about association-list lookup. -/

theorem lookup_isSome_map_update {β : Type} (d : List (String × β)) (k s : String)
    (g : β → β) :
    ((d.map (fun p => if p.1 == k then (p.1, g p.2) else p)).lookup s).isSome
      = (d.lookup s).isSome := by
  induction d with
  | nil => rfl
  | cons p t ih =>
    obtain ⟨a, b⟩ := p
    simp only [List.map_cons]
    by_cases h1 : (a == k) = true
    · rw [if_pos h1]
      cases h2 : s == a
      · have e1 : List.lookup s ((a, g b) ::
            (t.map (fun p => if p.1 == k then (p.1, g p.2) else p)))
            = List.lookup s (t.map (fun p => if p.1 == k then (p.1, g p.2) else p)) := by
          simp [List.lookup, h2]
        have e2 : List.lookup s ((a, b) :: t) = List.lookup s t := by
          simp [List.lookup, h2]
        rw [e1, e2, ih]
      · have e1 : List.lookup s ((a, g b) ::
            (t.map (fun p => if p.1 == k then (p.1, g p.2) else p))) = some (g b) := by
          simp [List.lookup, h2]
        have e2 : List.lookup s ((a, b) :: t) = some b := by
          simp [List.lookup, h2]
        rw [e1, e2]
        rfl
    · rw [if_neg h1]
      cases h2 : s == a
      · have e1 : List.lookup s ((a, b) ::
            (t.map (fun p => if p.1 == k then (p.1, g p.2) else p)))
            = List.lookup s (t.map (fun p => if p.1 == k then (p.1, g p.2) else p)) := by
          simp [List.lookup, h2]
        have e2 : List.lookup s ((a, b) :: t) = List.lookup s t := by
          simp [List.lookup, h2]
        rw [e1, e2, ih]
      · have e1 : List.lookup s ((a, b) ::
            (t.map (fun p => if p.1 == k then (p.1, g p.2) else p))) = some b := by
          simp [List.lookup, h2]
        have e2 : List.lookup s ((a, b) :: t) = some b := by
          simp [List.lookup, h2]
        rw [e1, e2]

theorem lookup_isSome_append_single {β : Type} (d : List (String × β)) (k s : String)
    (v : β) :
    ((d ++ [(k, v)]).lookup s).isSome = ((d.lookup s).isSome || (s == k)) := by
  induction d with
  | nil => cases h : s == k <;> simp [List.lookup, h]
  | cons p t ih =>
    obtain ⟨a, b⟩ := p
    cases h2 : s == a
    · have e1 : List.lookup s (((a, b) :: t) ++ [(k, v)])
          = List.lookup s (t ++ [(k, v)]) := by
        simp [List.lookup, h2]
      have e2 : List.lookup s ((a, b) :: t) = List.lookup s t := by
        simp [List.lookup, h2]
      rw [e1, e2, ih]
    · have e1 : List.lookup s (((a, b) :: t) ++ [(k, v)]) = some b := by
        simp [List.lookup, h2]
      have e2 : List.lookup s ((a, b) :: t) = some b := by
        simp [List.lookup, h2]
      rw [e1, e2]
      rfl

theorem lookup_eq_some_mem {β : Type} (d : List (String × β)) (s : String) (v : β)
    (h : d.lookup s = some v) : (s, v) ∈ d := by
  induction d with
  | nil => simp [List.lookup] at h
  | cons p t ih =>
    obtain ⟨a, b⟩ := p
    cases h2 : s == a
    · have e : List.lookup s ((a, b) :: t) = List.lookup s t := by
        simp [List.lookup, h2]
      rw [e] at h
      exact List.mem_cons_of_mem _ (ih h)
    · have e : List.lookup s ((a, b) :: t) = some b := by
        simp [List.lookup, h2]
      rw [e] at h
      obtain rfl : b = v := by injection h
      have ha : a = s := by
        have := (beq_iff_eq).mp h2
        exact this.symm
      subst ha
      exact List.mem_cons_self _ _

/-! Unfolding equations for the deduplication loops, and the refinement
equation between `dedupe` and the spec-side `keepFirstBySubId`. -/

theorem dedupe_go_cons (all : List Feature) (f : Feature) (t : List Feature)
    (i : Nat) (dups : List (String × List Nat)) (ded : List Feature) :
    dedupe_go all (f :: t) i dups ded
      = match dups.lookup f.ebird_subId with
        | some idxs =>
          if f == all.getD (idxs.headD 0) defaultFeature then
            dedupe_go all t (i + 1)
              (dups.map (fun p =>
                if p.1 == f.ebird_subId then (p.1, p.2 ++ [i]) else p)) ded
          else
            dedupe_go all t (i + 1) dups ded
        | none =>
          dedupe_go all t (i + 1) (dups ++ [(f.ebird_subId, [i])]) (ded ++ [f]) := rfl

theorem keepFirst_go_cons (seen : List String) (f : Feature) (t : List Feature) :
    keepFirstBySubId_go seen (f :: t)
      = if f.ebird_subId ∈ seen then keepFirstBySubId_go seen t
        else f :: keepFirstBySubId_go (f.ebird_subId :: seen) t := rfl

theorem dedupe_go_spec (all : List Feature) :
    ∀ (rest : List Feature) (i : Nat) (dups : List (String × List Nat))
      (ded : List Feature) (seen : List String),
      (∀ s : String, (dups.lookup s).isSome = true ↔ s ∈ seen) →
      dedupe_go all rest i dups ded = ded ++ keepFirstBySubId_go seen rest := by
  intro rest
  induction rest with
  | nil => intro i dups ded seen _; simp [dedupe_go, keepFirstBySubId_go]
  | cons f t ih =>
    intro i dups ded seen hinv
    cases hl : dups.lookup f.ebird_subId with
    | some idxs =>
      have hmem : f.ebird_subId ∈ seen := by
        rw [← hinv f.ebird_subId, hl]
        rfl
      rw [dedupe_go_cons, hl]
      rw [keepFirst_go_cons, if_pos hmem]
      show (if f == all.getD (idxs.headD 0) defaultFeature then
              dedupe_go all t (i + 1)
                (dups.map (fun p =>
                  if p.1 == f.ebird_subId then (p.1, p.2 ++ [i]) else p)) ded
            else dedupe_go all t (i + 1) dups ded)
          = ded ++ keepFirstBySubId_go seen t
      by_cases heq : (f == all.getD (idxs.headD 0) defaultFeature) = true
      · rw [if_pos heq]
        apply ih
        intro s
        rw [lookup_isSome_map_update dups f.ebird_subId s (fun l => l ++ [i])]
        exact hinv s
      · rw [if_neg heq]
        exact ih (i + 1) dups ded seen hinv
    | none =>
      have hmem : f.ebird_subId ∉ seen := by
        rw [← hinv f.ebird_subId, hl]
        simp
      rw [dedupe_go_cons, hl]
      rw [keepFirst_go_cons, if_neg hmem]
      show dedupe_go all t (i + 1) (dups ++ [(f.ebird_subId, [i])]) (ded ++ [f])
          = ded ++ (f :: keepFirstBySubId_go (f.ebird_subId :: seen) t)
      have hrec := ih (i + 1) (dups ++ [(f.ebird_subId, [i])]) (ded ++ [f])
        (f.ebird_subId :: seen) ?_
      · rw [hrec]
        simp
      · intro s
        rw [lookup_isSome_append_single, Bool.or_eq_true, hinv s, beq_iff_eq,
          List.mem_cons]
        exact or_comm

/-- Shared helper: `dedupe` unconditionally keeps exactly the first
occurrence of each distinct checklist id, in storage order; the deep
equality test against the first occurrence only affects the (discarded)
index bookkeeping, never the returned sequence. -/
theorem dedupe_eq_keepFirst (feats : List Feature) :
    dedupe feats = keepFirstBySubId feats := by
  have h := dedupe_go_spec feats feats 0 [] [] [] (fun s => by simp [List.lookup])
  simpa [dedupe, keepFirstBySubId] using h

/-! The claim theorems. -/

/-- C2, counterexample.  On `[A(id=1,x), C(id=1,z)]` with `x != z` (same
checklist id, different content), `dedupe` neither raises nor reports the
same-key inconsistency: it silently returns only the first occurrence and
drops the conflicting later one (`dedupe` is a total function into feature
lists, so no error is possible on any input), contradicting the claim that
the inconsistency is surfaced rather than one entry silently picked. -/
theorem dedupe_conflict_silently_dropped :
    dedupe [featA, featConflict] = [featA] ∧ featConflict ≠ featA := by
  exact ⟨rfl, by decide⟩

/-- C2, amended claim: for every input sequence — in particular one
containing two entries with the same checklist id whose contents differ —
`dedupe` silently returns exactly the first occurrence of each distinct
checklist id in storage order; a later same-id occurrence with different
content is dropped from the result without any error or report. -/
theorem dedupe_silent_first_occurrence (feats : List Feature) :
    dedupe feats = keepFirstBySubId feats :=
  dedupe_eq_keepFirst feats

/-- C6: on every input sequence in which any two entries sharing a
checklist id are deeply equal (so each later occurrence of an already-seen
id is structurally identical to the first), `dedupe` returns exactly the
first occurrence of each distinct checklist id in storage order. -/
theorem dedupe_first_occurrence_of_each (feats : List Feature)
    (h : ∀ i < feats.length, ∀ j < feats.length,
      (feats.getD i defaultFeature).ebird_subId
          = (feats.getD j defaultFeature).ebird_subId →
        feats.getD i defaultFeature = feats.getD j defaultFeature) :
    dedupe feats = keepFirstBySubId feats :=
  dedupe_eq_keepFirst feats

/-- C6, witness: the spec's example `[A(id=1,x), B(id=2,y), C(id=1,x)]`
satisfies the hypothesis and yields `[A, B]`. -/
theorem dedupe_first_occurrence_of_each_witness :
    dedupe [featA, featB, featA] = keepFirstBySubId [featA, featB, featA]
      ∧ keepFirstBySubId [featA, featB, featA] = [featA, featB] :=
  ⟨dedupe_first_occurrence_of_each [featA, featB, featA] (by decide), by decide⟩

/-- C1: evaluating the merge at the spec's drift example (stored count 5,
re-pulled count 8).  The new-entry count is 0 and a drift notice is logged,
and the persisted slot is replaced by an entry holding 8 — but the stored
record the checklist index points at still holds 5: `set_individuals` is
called with the *old* stored count (a no-op), so the claimed in-place
update to the newly pulled value never happens. -/
theorem pull_drift_updates_slot_not_index :
    (pull_new_entries storeWithFile respDrift ["motduc"] false).map
        (fun p => (p.2, indiv p.1 "S000000001",
          (p.1.geoFeatures.map (deref p.1)).map Feature.individuals, p.1.logs))
      = .ok (0, 5, [8], [SLog.driftWarning "S000000001" 8 5]) := rfl

/-- C3: the checklist index is consistent right after the load, but the
drift replacement performed by the very next merge pass breaks it — the
index keeps pointing at the old object (count 5) while the sequence slot
holds the freshly created replacement (count 8). -/
theorem merge_pass_breaks_index_consistency :
    (load storeWithFile fileS1).map index_consistent = .ok true
      ∧ (pull_new_entries storeWithFile respDrift ["motduc"] false).map
          (fun p => index_consistent p.1) = .ok false :=
  ⟨rfl, rfl⟩

/-- C5: with the persisted file present and an unchanged source response,
the first merge succeeds (new-entry count 1), but the second merge raises
`AssertionError` instead of returning 0 with an unchanged store: the
re-load runs `_setup_features` without the feature hash having been
cleared, so `assert(self.indiv(subid) == -1)` fires on the first
already-indexed checklist. -/
theorem pull_twice_crashes :
    (pull_new_entries storeWithFile respSame ["motduc", "x00422"] true).map Prod.snd
        = .ok 1
      ∧ (pull_new_entries storeWithFile respSame ["motduc", "x00422"] true).bind
          (fun p => pull_new_entries p.1 respSame ["motduc", "x00422"] true)
        = .error .assertionError :=
  ⟨rfl, rfl⟩

/-- C4, counterexample.  A session that merged checklist `S000000002` into
an empty store (no file yet) and then successfully loads a collection
containing only `S000000001` ends with the loaded sequence holding exactly
`S000000001` but the checklist index still holding the stale
`S000000002` entry as well: the index is extended, not rebuilt, so the
in-memory state is not replaced by the loaded collection. -/
theorem load_does_not_rebuild_index :
    ((pull_new_entries storeNoFile respS2 ["motduc"] true).bind
        (fun p => load p.1 fileS1)).map
      (fun st => (checklists_in_geojson st, st.features.map Prod.fst))
      = .ok (["S000000001"], ["S000000002", "S000000001"]) := rfl

/-- C9: on a site that already has a global id, `add_global_id` with
`overwrite = true` reports the replacement (naming the freshly generated
bracketed upper-cased id) but returns the survey sites unchanged — the
overwrite branch never assigns the new id, so the stored global id is not
replaced as claimed. -/
theorem add_global_id_overwrite_does_not_assign :
    add_global_id [siteWithGid] 0 true "1a2b"
      = ([siteWithGid], [VLog.overwroteGlobalId "Park A" "\x7bOLD-ID\x7d" "\x7b1A2B\x7d"]) := by
  decide

/-- C8, counterexample.  With a containment collaborator under which *both*
scouting areas contain the site's geometry, `find_scouting_area_for_site`
does not fail with any ambiguity error: it silently returns the id of the
first containing area in index order. -/
theorem find_scouting_area_no_ambiguity_error :
    find_scouting_area_for_site (fun _ _ => true) [siteSouth] [areaNorth, areaSouth]
        (some "G1") = .ok (some "north") := rfl

/-- C7: in a merge pull over two distinct species codes whose responses
are a single observation each, sharing one checklist id, the two
`individualCount`s are summed into a single logical observation keyed by
that checklist id (the first observation's other fields are kept), and the
per-species-code lumping cross counter is 0 for the first code and exactly
1 for the code at which the collision occurred. -/
theorem lumping_sums_counts (a b : String) (hab : a ≠ b) (o1 o2 : Obs)
    (hsub : o2.subId = o1.subId) :
    pull_species_observations
        (fun c => if c == a then [o1] else if c == b then [o2] else []) [a, b]
      = ([(o1.subId, { o1 with howMany := o1.howMany + o2.howMany })], [(a, 0), (b, 1)]) := by
  have hba : (b == a) = false := beq_eq_false_iff_ne.mpr (Ne.symm hab)
  have hsub1 : (o2.subId == o1.subId) = true := beq_iff_eq.mpr hsub
  have hsub2 : (o1.subId == o2.subId) = true := beq_iff_eq.mpr hsub.symm
  simp [pull_species_observations, pull_species_observations_go, lump_go,
    List.lookup, hba, hsub1, hsub2]
  intro hcon
  exact absurd hsub.symm hcon

/-- C7, witness: the spec's lumping example, counts 3 and 4 merging to 7
with the collision counted once on the second species code. -/
theorem lumping_sums_counts_witness :
    pull_species_observations
        (fun c => if c == "motduc" then [obsS1n3]
          else if c == "x00422" then [obsHybrid4] else []) ["motduc", "x00422"]
      = ([(obsS1n3.subId,
           { obsS1n3 with howMany := obsS1n3.howMany + obsHybrid4.howMany })],
         [("motduc", 0), ("x00422", 1)]) :=
  lumping_sums_counts "motduc" "x00422" (by decide) obsS1n3 obsHybrid4 rfl

theorem find?_first_getD {α : Type} (d : α) (p : α → Bool) :
    ∀ (l : List α) (k : Nat), k < l.length →
      (∀ j, j < k → p (l.getD j d) = false) → p (l.getD k d) = true →
      l.find? p = some (l.getD k d) := by
  intro l
  induction l with
  | nil =>
    intro k hk _ _
    exact absurd hk (Nat.not_lt_zero k)
  | cons x t ih =>
    intro k hk hbefore hp
    cases k with
    | zero =>
      have hx : p x = true := by simpa [List.getD] using hp
      rw [List.find?_cons_of_pos _ hx]
      simp [List.getD]
    | succ k2 =>
      have hx : p x = false := by
        have h0 := hbefore 0 (Nat.succ_pos k2)
        simpa [List.getD] using h0
      rw [List.find?_cons_of_neg _ (by simp [hx])]
      have hk2 : k2 < t.length := by
        have := hk
        simp only [List.length_cons] at this
        omega
      have hb2 : ∀ j, j < k2 → p (t.getD j d) = false := by
        intro j hj
        have := hbefore (j + 1) (Nat.succ_lt_succ hj)
        simpa [List.getD] using this
      have hp2 : p (t.getD k2 d) = true := by simpa [List.getD] using hp
      have hfind := ih k2 hk2 hb2 hp2
      rw [hfind]
      simp [List.getD]

/-- C8, amended claim: for a survey site whose global id selects exactly one
row, `find_scouting_area_for_site` returns the id of the *first* scouting
area in index order whose polygon contains the site's geometry — even when
later areas also contain it, since no ambiguity detection exists — and
`null` when no area contains it (the `find?` characterization covers that
case); it never raises an ambiguity error. -/
theorem find_scouting_area_first_containing (w : Nat → Nat → Bool)
    (sites : List SurveySite) (areas : List ScoutingArea) (gid : Option String)
    (e : SurveySite)
    (hfilter : sites.filter (fun s => s.globalId == gid) = [e]) :
    find_scouting_area_for_site w sites areas gid
        = .ok ((areas.find? (fun a => w e.geom a.geom)).map ScoutingArea.id)
      ∧ ∀ k, k < areas.length →
          (∀ j, j < k → w e.geom (areas.getD j defaultArea).geom = false) →
          w e.geom (areas.getD k defaultArea).geom = true →
          find_scouting_area_for_site w sites areas gid
            = .ok (some (areas.getD k defaultArea).id) := by
  have hbase : find_scouting_area_for_site w sites areas gid
      = .ok ((areas.find? (fun a => w e.geom a.geom)).map ScoutingArea.id) := by
    unfold find_scouting_area_for_site
    rw [hfilter]
  refine ⟨hbase, ?_⟩
  intro k hk hbefore hp
  rw [hbase, find?_first_getD defaultArea (fun a => w e.geom a.geom) areas k hk hbefore hp]
  rfl

/-- C8, witness: with exactly the `north` polygon containing the site, the
first-match characterization yields `north`. -/
theorem find_scouting_area_first_containing_witness :
    find_scouting_area_for_site (fun _ ag => ag == 10) [siteSouth]
        [areaNorth, areaSouth] (some "G1") = .ok (some "north") := by
  have h := (find_scouting_area_first_containing (fun _ ag => ag == 10) [siteSouth]
    [areaNorth, areaSouth] (some "G1") siteSouth rfl).2 0 (by decide)
    (fun j hj => absurd hj (Nat.not_lt_zero j)) (by decide)
  exact h

/-! Characterization of `_setup_features` on a fresh index, for the load
claim. -/

theorem getD_append_len {α : Type} (H : List α) (x : α) (t : List α) (d : α) :
    (H ++ x :: t).getD H.length d = x := by
  induction H with
  | nil => rfl
  | cons y H2 ih => simpa [List.getD] using ih

theorem map_getD_range' (H T : List Feature) :
    (List.range' H.length T.length).map (fun o => (H ++ T).getD o defaultFeature) = T := by
  induction T generalizing H with
  | nil => rfl
  | cons f t ih =>
    show ((H.length :: List.range' (H.length + 1) t.length).map
        (fun o => (H ++ f :: t).getD o defaultFeature)) = f :: t
    rw [List.map_cons, getD_append_len H f t defaultFeature]
    congr 1
    have h2 := ih (H ++ [f])
    simpa [List.append_assoc] using h2

theorem lookup_append_single_none {β : Type} (d : List (String × β)) (k s : String)
    (v : β) (h1 : d.lookup s = none) (h2 : (s == k) = false) :
    (d ++ [(k, v)]).lookup s = none := by
  have hs : ((d ++ [(k, v)]).lookup s).isSome = false := by
    rw [lookup_isSome_append_single, h1, h2]
    rfl
  cases hval : (d ++ [(k, v)]).lookup s
  · rfl
  · rw [hval] at hs
    simp at hs

theorem setup_go_ok : ∀ (oids : List Nat) (st : Store),
    (∀ o ∈ oids, st.features.lookup (deref st o).ebird_subId = none) →
    ((oids.map (fun o => (deref st o).ebird_subId)).Nodup) →
    setup_features_go oids st
      = .ok { st with features :=
          st.features ++ oids.map (fun o => ((deref st o).ebird_subId, o)) } := by
  intro oids
  induction oids with
  | nil => intro st _ _; simp [setup_features_go]
  | cons o rest ih =>
    intro st hfresh hnodup
    have hl : st.features.lookup (deref st o).ebird_subId = none :=
      hfresh o (List.mem_cons_self o rest)
    have hind : indiv st (deref st o).ebird_subId = -1 := by
      unfold indiv
      rw [hl]
    have hdict : dictInsert st.features (deref st o).ebird_subId o
        = st.features ++ [((deref st o).ebird_subId, o)] := by
      unfold dictInsert
      rw [hl]
      rfl
    have hstep : setup_features_go (o :: rest) st
        = setup_features_go rest
            { st with features := st.features ++ [((deref st o).ebird_subId, o)] } := by
      show (if indiv st (deref st o).ebird_subId == -1 then
              setup_features_go rest
                { st with features := dictInsert st.features (deref st o).ebird_subId o }
            else .error .assertionError)
          = setup_features_go rest
              { st with features := st.features ++ [((deref st o).ebird_subId, o)] }
      rw [hind, hdict]
      rfl
    rw [hstep]
    set st1 : Store :=
      { st with features := st.features ++ [((deref st o).ebird_subId, o)] } with hst1
    have hderef : ∀ o2 : Nat, deref st1 o2 = deref st o2 := fun o2 => rfl
    have hsnotin : (deref st o).ebird_subId
        ∉ rest.map (fun o2 => (deref st o2).ebird_subId) := (List.nodup_cons.mp hnodup).1
    have hfresh1 : ∀ o2 ∈ rest, st1.features.lookup (deref st1 o2).ebird_subId = none := by
      intro o2 ho2
      rw [hderef o2]
      have hne : ((deref st o2).ebird_subId == (deref st o).ebird_subId) = false := by
        rw [beq_eq_false_iff_ne]
        intro hcon
        exact hsnotin (hcon ▸ List.mem_map_of_mem _ ho2)
      exact lookup_append_single_none st.features (deref st o).ebird_subId
        (deref st o2).ebird_subId o (hfresh o2 (List.mem_cons_of_mem o ho2)) hne
    have hnodup1 : (rest.map (fun o2 => (deref st1 o2).ebird_subId)).Nodup :=
      (List.nodup_cons.mp hnodup).2
    have hres := ih st1 hfresh1 hnodup1
    rw [hres, hst1]
    simp [deref]

theorem setup_go_err_present : ∀ (oids : List Nat) (st : Store),
    (∀ p ∈ st.features, 0 ≤ (deref st p.2).individuals) →
    (∀ o ∈ oids, 0 ≤ (deref st o).individuals) →
    (∃ o ∈ oids, (st.features.lookup (deref st o).ebird_subId).isSome = true) →
    setup_features_go oids st = .error .assertionError := by
  intro oids
  induction oids with
  | nil =>
    intro st _ _ hex
    obtain ⟨o, ho, _⟩ := hex
    exact absurd ho (List.not_mem_nil o)
  | cons o rest ih =>
    intro st hvals hcnts hex
    cases hl : st.features.lookup (deref st o).ebird_subId with
    | some oid2 =>
      have hmem : ((deref st o).ebird_subId, oid2) ∈ st.features :=
        lookup_eq_some_mem st.features (deref st o).ebird_subId oid2 hl
      have hge : 0 ≤ (deref st oid2).individuals := hvals _ hmem
      have hind : indiv st (deref st o).ebird_subId = (deref st oid2).individuals := by
        unfold indiv
        rw [hl]
      have hne : (indiv st (deref st o).ebird_subId == (-1 : Int)) = false := by
        rw [hind, beq_eq_false_iff_ne]
        omega
      show (if indiv st (deref st o).ebird_subId == -1 then
              setup_features_go rest
                { st with features := dictInsert st.features (deref st o).ebird_subId o }
            else .error .assertionError)
          = .error .assertionError
      rw [hne]
      rfl
    | none =>
      have hind : indiv st (deref st o).ebird_subId = -1 := by
        unfold indiv
        rw [hl]
      have hdict : dictInsert st.features (deref st o).ebird_subId o
          = st.features ++ [((deref st o).ebird_subId, o)] := by
        unfold dictInsert
        rw [hl]
        rfl
      have hstep : setup_features_go (o :: rest) st
          = setup_features_go rest
              { st with features := st.features ++ [((deref st o).ebird_subId, o)] } := by
        show (if indiv st (deref st o).ebird_subId == -1 then
                setup_features_go rest
                  { st with features := dictInsert st.features (deref st o).ebird_subId o }
              else .error .assertionError)
            = setup_features_go rest
                { st with features := st.features ++ [((deref st o).ebird_subId, o)] }
        rw [hind, hdict]
        rfl
      rw [hstep]
      set st1 : Store :=
        { st with features := st.features ++ [((deref st o).ebird_subId, o)] } with hst1
      obtain ⟨o2, ho2, hsome⟩ := hex
      have ho2rest : o2 ∈ rest := by
        rcases List.mem_cons.mp ho2 with heq | htail
        · subst heq
          rw [hl] at hsome
          simp at hsome
        · exact htail
      apply ih st1
      · intro p hp
        rcases List.mem_append.mp hp with hin | hnew
        · exact hvals p hin
        · have : p = ((deref st o).ebird_subId, o) := by simpa using hnew
          subst this
          exact hcnts o (List.mem_cons_self o rest)
      · intro o3 ho3
        exact hcnts o3 (List.mem_cons_of_mem o ho3)
      · refine ⟨o2, ho2rest, ?_⟩
        show ((st.features ++ [((deref st o).ebird_subId, o)]).lookup
          (deref st1 o2).ebird_subId).isSome = true
        rw [lookup_isSome_append_single]
        have : ((st.features.lookup (deref st o2).ebird_subId).isSome) = true := hsome
        rw [show (deref st1 o2).ebird_subId = (deref st o2).ebird_subId from rfl, this]
        rfl

theorem setup_go_err_dup : ∀ (oids : List Nat) (st : Store),
    (∀ p ∈ st.features, 0 ≤ (deref st p.2).individuals) →
    (∀ o ∈ oids, 0 ≤ (deref st o).individuals) →
    (∀ o ∈ oids, st.features.lookup (deref st o).ebird_subId = none) →
    ¬ (oids.map (fun o => (deref st o).ebird_subId)).Nodup →
    setup_features_go oids st = .error .assertionError := by
  intro oids
  induction oids with
  | nil =>
    intro st _ _ _ hdup
    exact absurd List.nodup_nil hdup
  | cons o rest ih =>
    intro st hvals hcnts hfresh hdup
    have hl : st.features.lookup (deref st o).ebird_subId = none :=
      hfresh o (List.mem_cons_self o rest)
    have hind : indiv st (deref st o).ebird_subId = -1 := by
      unfold indiv
      rw [hl]
    have hdict : dictInsert st.features (deref st o).ebird_subId o
        = st.features ++ [((deref st o).ebird_subId, o)] := by
      unfold dictInsert
      rw [hl]
      rfl
    have hstep : setup_features_go (o :: rest) st
        = setup_features_go rest
            { st with features := st.features ++ [((deref st o).ebird_subId, o)] } := by
      show (if indiv st (deref st o).ebird_subId == -1 then
              setup_features_go rest
                { st with features := dictInsert st.features (deref st o).ebird_subId o }
            else .error .assertionError)
          = setup_features_go rest
              { st with features := st.features ++ [((deref st o).ebird_subId, o)] }
      rw [hind, hdict]
      rfl
    rw [hstep]
    set st1 : Store :=
      { st with features := st.features ++ [((deref st o).ebird_subId, o)] } with hst1
    have hvals1 : ∀ p ∈ st1.features, 0 ≤ (deref st1 p.2).individuals := by
      intro p hp
      rcases List.mem_append.mp hp with hin | hnew
      · exact hvals p hin
      · have : p = ((deref st o).ebird_subId, o) := by simpa using hnew
        subst this
        exact hcnts o (List.mem_cons_self o rest)
    have hcnts1 : ∀ o3 ∈ rest, 0 ≤ (deref st1 o3).individuals := fun o3 ho3 =>
      hcnts o3 (List.mem_cons_of_mem o ho3)
    by_cases hs : (deref st o).ebird_subId ∈ rest.map (fun o2 => (deref st o2).ebird_subId)
    · obtain ⟨o2, ho2, hso2⟩ := List.mem_map.mp hs
      apply setup_go_err_present rest st1 hvals1 hcnts1
      refine ⟨o2, ho2, ?_⟩
      show ((st.features ++ [((deref st o).ebird_subId, o)]).lookup
        (deref st1 o2).ebird_subId).isSome = true
      rw [lookup_isSome_append_single]
      rw [show (deref st1 o2).ebird_subId = (deref st o2).ebird_subId from rfl]
      have hbeq : ((deref st o2).ebird_subId == (deref st o).ebird_subId) = true :=
        beq_iff_eq.mpr hso2
      rw [hbeq]
      simp
    · have hdup1 : ¬ (rest.map (fun o2 => (deref st1 o2).ebird_subId)).Nodup := by
        intro hcon
        exact hdup (List.nodup_cons.mpr ⟨hs, hcon⟩)
      have hfresh1 : ∀ o2 ∈ rest, st1.features.lookup (deref st1 o2).ebird_subId = none := by
        intro o2 ho2
        have hne : ((deref st o2).ebird_subId == (deref st o).ebird_subId) = false := by
          rw [beq_eq_false_iff_ne]
          intro hcon
          exact hs (hcon ▸ List.mem_map_of_mem _ ho2)
        exact lookup_append_single_none st.features (deref st o).ebird_subId
          (deref st o2).ebird_subId o (hfresh o2 (List.mem_cons_of_mem o ho2)) hne
      exact ih st1 hvals1 hcnts1 hfresh1 hdup1

/-- C4, amended claim: a successful `load` of a well-tagged persisted
collection into a session whose checklist index is empty (the fresh-session
case, counts being non-negative) replaces the collection and builds the
index so that every checklist of the loaded collection maps to exactly one
slot, in order — and a duplicate checklist id encountered while building
aborts the load with the fatal `AssertionError` of
`assert(self.indiv(subid) == -1)` rather than a recoverable error.  (When
the index is non-empty from earlier work in the same session, the index is
extended rather than rebuilt — see the counterexample.) -/
theorem load_fresh_rebuilds_index (st : Store) (g : GJson)
    (hfeat : st.features = [])
    (htag : is_feature_collection g = true)
    (hcnt : ∀ f ∈ g.feats, 0 ≤ f.individuals) :
    if (g.feats.map Feature.ebird_subId).Nodup then
      ∃ st1, load st g = .ok st1
        ∧ checklists_in_geojson st1 = g.feats.map Feature.ebird_subId
        ∧ st1.features.map Prod.fst = g.feats.map Feature.ebird_subId
    else
      load st g = .error .assertionError := by
  set stA : Store :=
    { st with heap := st.heap ++ g.feats,
              geoFeatures := List.range' st.heap.length g.feats.length } with hstA
  have hload : load st g
      = setup_features_go (List.range' st.heap.length g.feats.length) stA := by
    unfold load
    rw [if_pos htag]
    rfl
  have hderef : (List.range' st.heap.length g.feats.length).map
      (fun o => deref stA o) = g.feats := map_getD_range' st.heap g.feats
  have hsubs : (List.range' st.heap.length g.feats.length).map
      (fun o => (deref stA o).ebird_subId) = g.feats.map Feature.ebird_subId := by
    have h2 := congrArg (List.map Feature.ebird_subId) hderef
    rw [List.map_map] at h2
    exact h2
  have hfreshA : ∀ o ∈ List.range' st.heap.length g.feats.length,
      stA.features.lookup (deref stA o).ebird_subId = none := by
    intro o _
    show (st.features.lookup (deref stA o).ebird_subId) = none
    rw [hfeat]
    rfl
  have hcntsA : ∀ o ∈ List.range' st.heap.length g.feats.length,
      0 ≤ (deref stA o).individuals := by
    intro o ho
    have hin : deref stA o
        ∈ (List.range' st.heap.length g.feats.length).map (fun o => deref stA o) :=
      List.mem_map_of_mem _ ho
    rw [hderef] at hin
    exact hcnt _ hin
  have hvalsA : ∀ p ∈ stA.features, 0 ≤ (deref stA p.2).individuals := by
    intro p hp
    have : p ∈ st.features := hp
    rw [hfeat] at this
    exact absurd this (List.not_mem_nil p)
  by_cases hnd : (g.feats.map Feature.ebird_subId).Nodup
  · rw [if_pos hnd]
    have hndA : ((List.range' st.heap.length g.feats.length).map
        (fun o => (deref stA o).ebird_subId)).Nodup := by
      rw [hsubs]
      exact hnd
    have hok := setup_go_ok (List.range' st.heap.length g.feats.length) stA hfreshA hndA
    refine ⟨_, by rw [hload, hok], ?_, ?_⟩
    · show (List.range' st.heap.length g.feats.length).map
          (fun oid => (deref stA oid).ebird_subId) = g.feats.map Feature.ebird_subId
      exact hsubs
    · show (stA.features ++ (List.range' st.heap.length g.feats.length).map
          (fun o => ((deref stA o).ebird_subId, o))).map Prod.fst
          = g.feats.map Feature.ebird_subId
      have hA : stA.features = [] := hfeat
      rw [hA, List.nil_append, List.map_map]
      exact hsubs
  · rw [if_neg hnd]
    rw [hload]
    apply setup_go_err_dup _ _ hvalsA hcntsA hfreshA
    intro hcon
    rw [hsubs] at hcon
    exact hnd hcon

/-- C4, witness for the amended claim: loading `fileS1` into the fresh
no-file session succeeds and builds the one-slot index. -/
theorem load_fresh_rebuilds_index_witness :
    if (fileS1.feats.map Feature.ebird_subId).Nodup then
      ∃ st1, load storeNoFile fileS1 = .ok st1
        ∧ checklists_in_geojson st1 = fileS1.feats.map Feature.ebird_subId
        ∧ st1.features.map Prod.fst = fileS1.feats.map Feature.ebird_subId
    else
      load storeNoFile fileS1 = .error .assertionError :=
  load_fresh_rebuilds_index storeNoFile fileS1 rfl rfl (by decide)

/-! Stability and framing lemmas for the trapping-area verification and
correction pass. -/

theorem getD_eq_of_getElem? {α : Type} (l : List α) (n : Nat) (d a : α)
    (h : l[n]? = some a) : l.getD n d = a := by
  rw [List.getD_eq_getElem?_getD, h]
  rfl

theorem map_siteKey_set (l : List SurveySite) (n : Nat) (s2 : SurveySite) :
    siteKey s2 = siteKey (l.getD n defaultSite) →
    (l.set n s2).map siteKey = l.map siteKey := by
  induction l generalizing n with
  | nil => intro _; rfl
  | cons x t ih =>
    intro h
    cases n with
    | zero =>
      have hx : siteKey s2 = siteKey x := by simpa [List.getD] using h
      show (s2 :: t).map siteKey = (x :: t).map siteKey
      rw [List.map_cons, List.map_cons, hx]
    | succ m =>
      have h2 : siteKey s2 = siteKey (t.getD m defaultSite) := by
        simpa [List.getD] using h
      show (x :: t.set m s2).map siteKey = (x :: t).map siteKey
      rw [List.map_cons, List.map_cons, ih m h2]

theorem getD_key_eq (l1 l2 : List SurveySite)
    (h : l1.map siteKey = l2.map siteKey) (j : Nat) :
    siteKey (l1.getD j defaultSite) = siteKey (l2.getD j defaultSite) := by
  have hlen : l1.length = l2.length := by
    rw [← List.length_map l1 siteKey, h, List.length_map]
  by_cases hj : j < l1.length
  · have h3 : Option.map siteKey l1[j]? = Option.map siteKey l2[j]? := by
      rw [← List.getElem?_map, ← List.getElem?_map, h]
    obtain ⟨a1, ha1⟩ : ∃ a, l1[j]? = some a := ⟨_, List.getElem?_eq_getElem hj⟩
    obtain ⟨a2, ha2⟩ : ∃ a, l2[j]? = some a := ⟨_, List.getElem?_eq_getElem (hlen ▸ hj)⟩
    rw [ha1, ha2] at h3
    rw [getD_eq_of_getElem? l1 j defaultSite a1 ha1,
      getD_eq_of_getElem? l2 j defaultSite a2 ha2]
    simpa using h3
  · have hj2 : l2.length ≤ j := by omega
    have e1 : l1[j]? = none := List.getElem?_eq_none (by omega)
    have e2 : l2[j]? = none := List.getElem?_eq_none hj2
    rw [List.getD_eq_getElem?_getD, List.getD_eq_getElem?_getD, e1, e2]

theorem filter_gid_map_key (gid : Option String) :
    ∀ (l1 l2 : List SurveySite), l1.map siteKey = l2.map siteKey →
      (l1.filter (fun s => s.globalId == gid)).map siteKey
        = (l2.filter (fun s => s.globalId == gid)).map siteKey := by
  intro l1
  induction l1 with
  | nil =>
    intro l2 h
    have h0 : l2 = [] := List.map_eq_nil.mp h.symm
    subst h0
    rfl
  | cons x t ih =>
    intro l2 h
    cases l2 with
    | nil => simp at h
    | cons y t2 =>
      rw [List.map_cons, List.map_cons] at h
      injection h with h1 h2
      have hg : x.globalId = y.globalId := congrArg Prod.fst h1
      by_cases hp : (x.globalId == gid) = true
      · have hq : (y.globalId == gid) = true := by rw [← hg]; exact hp
        rw [@List.filter_cons_of_pos _ (fun s => s.globalId == gid) x t hp,
          @List.filter_cons_of_pos _ (fun s => s.globalId == gid) y t2 hq,
          List.map_cons, List.map_cons, h1, ih t2 h2]
      · have hq : ¬ (y.globalId == gid) = true := by rw [← hg]; exact hp
        rw [@List.filter_cons_of_neg _ (fun s => s.globalId == gid) x t hp,
          @List.filter_cons_of_neg _ (fun s => s.globalId == gid) y t2 hq, ih t2 h2]

theorem filter_singleton_transfer (gid : Option String) (l1 l2 : List SurveySite)
    (h : l1.map siteKey = l2.map siteKey) (e : SurveySite)
    (hf : l1.filter (fun s => s.globalId == gid) = [e]) :
    ∃ e2, l2.filter (fun s => s.globalId == gid) = [e2] ∧ siteKey e2 = siteKey e := by
  have hmap := filter_gid_map_key gid l1 l2 h
  rw [hf] at hmap
  rcases hsh : l2.filter (fun s => s.globalId == gid) with _ | ⟨e2, _ | ⟨e3, tl⟩⟩
  · rw [hsh] at hmap
    simp at hmap
  · rw [hsh] at hmap
    refine ⟨e2, hsh, ?_⟩
    simpa using hmap.symm
  · rw [hsh] at hmap
    simp at hmap

theorem find?_congr {α : Type} (l : List α) (p q : α → Bool)
    (h : ∀ a ∈ l, p a = q a) : l.find? p = l.find? q := by
  induction l with
  | nil => rfl
  | cons x t ih =>
    have hx := h x (List.mem_cons_self x t)
    cases hq : q x
    · have hpx : ¬ p x = true := by rw [hx, hq]; simp
      have hqx : ¬ q x = true := by rw [hq]; simp
      rw [List.find?_cons_of_neg _ hpx, List.find?_cons_of_neg _ hqx]
      exact ih (fun a ha => h a (List.mem_cons_of_mem x ha))
    · have hpx : p x = true := by rw [hx, hq]
      rw [List.find?_cons_of_pos _ hpx, List.find?_cons_of_pos _ hq]

theorem verify_trapping_area_eq (w : Nat → Nat → Bool) (sites : List SurveySite)
    (areas : List ScoutingArea) (cache : Option String) (ind : Nat) (e : SurveySite)
    (hf : sites.filter (fun s => s.globalId == (sites.getD ind defaultSite).globalId)
      = [e]) :
    verify_trapping_area w sites areas cache ind
      = (if pyTruth (sites.getD ind defaultSite).area then
           if pyStr (sites.getD ind defaultSite).area
               == pyStr ((areas.find? (fun a => w e.geom a.geom)).map ScoutingArea.id)
             then .ok (true, cache)
             else .ok (false,
               some (pyStr ((areas.find? (fun a => w e.geom a.geom)).map ScoutingArea.id)))
         else
           if pyTruth ((areas.find? (fun a => w e.geom a.geom)).map ScoutingArea.id)
             then .ok (false,
               some (pyStr ((areas.find? (fun a => w e.geom a.geom)).map ScoutingArea.id)))
             else .ok (true, cache)) := by
  simp only [verify_trapping_area, find_scouting_area_for_site]
  rw [hf]

theorem verify_trapping_area_isOk (w : Nat → Nat → Bool) (sites : List SurveySite)
    (areas : List ScoutingArea) (cache : Option String) (ind : Nat) (e : SurveySite)
    (hf : sites.filter (fun s => s.globalId == (sites.getD ind defaultSite).globalId)
      = [e]) :
    ∃ b c, verify_trapping_area w sites areas cache ind = .ok (b, c) := by
  rw [verify_trapping_area_eq w sites areas cache ind e hf]
  by_cases h1 : pyTruth (sites.getD ind defaultSite).area = true
  · rw [if_pos h1]
    by_cases h2 : (pyStr (sites.getD ind defaultSite).area
        == pyStr ((areas.find? (fun a => w e.geom a.geom)).map ScoutingArea.id)) = true
    · rw [if_pos h2]
      exact ⟨_, _, rfl⟩
    · rw [if_neg h2]
      exact ⟨_, _, rfl⟩
  · rw [if_neg h1]
    by_cases h2 : pyTruth ((areas.find? (fun a => w e.geom a.geom)).map ScoutingArea.id)
        = true
    · rw [if_pos h2]
      exact ⟨_, _, rfl⟩
    · rw [if_neg h2]
      exact ⟨_, _, rfl⟩

theorem correct_go_cons (w : Nat → Nat → Bool) (areas : List ScoutingArea)
    (ind : Nat) (rest : List Nat) (sites : List SurveySite) (cache : Option String) :
    correct_trapping_areas_go w areas (ind :: rest) sites cache
      = match verify_trapping_area w sites areas cache ind with
        | .error e => .error e
        | .ok (true, cache1) => correct_trapping_areas_go w areas rest sites cache1
        | .ok (false, cache1) =>
          correct_trapping_areas_go w areas rest
            (sites.set ind { sites.getD ind defaultSite with area := cache1 }) cache1 := rfl

theorem correct_go_append (w : Nat → Nat → Bool) (areas : List ScoutingArea) :
    ∀ (l1 l2 : List Nat) (sites : List SurveySite) (cache : Option String),
      correct_trapping_areas_go w areas (l1 ++ l2) sites cache
        = (correct_trapping_areas_go w areas l1 sites cache).bind
            (fun p => correct_trapping_areas_go w areas l2 p.1 p.2) := by
  intro l1
  induction l1 with
  | nil => intro l2 sites cache; rfl
  | cons ind rest ih =>
    intro l2 sites cache
    rw [List.cons_append, correct_go_cons w areas ind (rest ++ l2) sites cache,
      correct_go_cons w areas ind rest sites cache]
    cases hv : verify_trapping_area w sites areas cache ind with
    | error e => rfl
    | ok bc =>
      obtain ⟨b, c⟩ := bc
      cases b
      · exact ih l2 (sites.set ind { sites.getD ind defaultSite with area := c }) c
      · exact ih l2 sites c

theorem correct_go_spec (w : Nat → Nat → Bool) (areas : List ScoutingArea)
    (sites0 : List SurveySite)
    (huniq : ∀ j, j < sites0.length → ∃ e, sites0.filter
        (fun s => s.globalId == (sites0.getD j defaultSite).globalId) = [e]) :
    ∀ (l : List Nat) (sites : List SurveySite) (cache : Option String),
      sites.map siteKey = sites0.map siteKey →
      (∀ j ∈ l, j < sites0.length) →
      ∃ sites1 cache1,
        correct_trapping_areas_go w areas l sites cache = .ok (sites1, cache1)
          ∧ sites1.map siteKey = sites0.map siteKey
          ∧ ∀ k, k ∉ l → sites1[k]? = sites[k]? := by
  intro l
  induction l with
  | nil =>
    intro sites cache hproj _
    exact ⟨sites, cache, rfl, hproj, fun k _ => rfl⟩
  | cons ind rest ih =>
    intro sites cache hproj hbound
    have hlt : ind < sites0.length := hbound ind (List.mem_cons_self ind rest)
    obtain ⟨e, hfe⟩ := huniq ind hlt
    have hkey := getD_key_eq sites sites0 hproj ind
    have hgid : (sites.getD ind defaultSite).globalId
        = (sites0.getD ind defaultSite).globalId := congrArg Prod.fst hkey
    obtain ⟨e2, hfe2, _⟩ := filter_singleton_transfer
      ((sites0.getD ind defaultSite).globalId) sites0 sites hproj.symm e hfe
    have hfe3 : sites.filter
        (fun s => s.globalId == (sites.getD ind defaultSite).globalId) = [e2] := by
      rw [hgid]
      exact hfe2
    obtain ⟨b, c, hv⟩ := verify_trapping_area_isOk w sites areas cache ind e2 hfe3
    rw [correct_go_cons w areas ind rest sites cache, hv]
    cases b
    · have hproj2 : (sites.set ind
          { sites.getD ind defaultSite with area := c }).map siteKey
          = sites0.map siteKey := by
        rw [map_siteKey_set sites ind
          { sites.getD ind defaultSite with area := c } rfl]
        exact hproj
      obtain ⟨sites1, cache1, hgo, hp1, hframe⟩ := ih
        (sites.set ind { sites.getD ind defaultSite with area := c }) c hproj2
        (fun j hj => hbound j (List.mem_cons_of_mem ind hj))
      refine ⟨sites1, cache1, hgo, hp1, ?_⟩
      intro k hk
      have hkr : k ∉ rest := fun hh => hk (List.mem_cons_of_mem _ hh)
      have hki : ind ≠ k := fun hh => hk (hh ▸ List.mem_cons_self ind rest)
      rw [hframe k hkr, List.getElem?_set_ne hki]
    · obtain ⟨sites1, cache1, hgo, hp1, hframe⟩ := ih sites c hproj
        (fun j hj => hbound j (List.mem_cons_of_mem ind hj))
      refine ⟨sites1, cache1, hgo, hp1, ?_⟩
      intro k hk
      exact hframe k (fun hh => hk (List.mem_cons_of_mem _ hh))

/-- C10: for a survey site (stored at slot `i`) whose geometry lies within
the scouting-area polygon with id `north` and within no other scouting
area, whose `assignedArea` label is `south`, and whose global id (like
every site's) selects exactly one row, `verify_trapping_area` fails for
that site and caches the discovered `north`, and `correct_trapping_areas`
— which re-runs the per-site verification immediately before each
correction — overwrites the site's `assignedArea` with that cached
`north`. -/
theorem verify_and_correct_north (w : Nat → Nat → Bool) (sites : List SurveySite)
    (areas : List ScoutingArea) (cache : Option String) (i : Nat) (si : SurveySite)
    (g : String)
    (hsi : sites[i]? = some si)
    (hgid : si.globalId = some g)
    (harea : si.area = some "south")
    (huniq : ∀ j, j < sites.length → ∃ e, sites.filter
        (fun s => s.globalId == (sites.getD j defaultSite).globalId) = [e])
    (hw : ∀ a ∈ areas, w si.geom a.geom = (a.id == "north"))
    (hnorth : ∃ a ∈ areas, a.id = "north") :
    verify_trapping_area w sites areas cache i = .ok (false, some "north")
      ∧ ∃ sites1 cache1,
          correct_trapping_areas w sites areas cache = .ok (sites1, cache1)
            ∧ sites1[i]? = some { si with area := some "north" } := by
  have hi : i < sites.length := by
    rcases List.getElem?_eq_some.mp hsi with ⟨h, _⟩
    exact h
  have hrow : sites.getD i defaultSite = si := getD_eq_of_getElem? sites i defaultSite si hsi
  obtain ⟨e, hfe⟩ := huniq i hi
  have hsimem : si ∈ sites := by
    rcases List.getElem?_eq_some.mp hsi with ⟨h, hh⟩
    exact hh ▸ List.getElem_mem h
  have hpred : (si.globalId == (sites.getD i defaultSite).globalId) = true := by
    rw [hrow]
    exact beq_self_eq_true _
  have hsifil : si ∈ sites.filter
      (fun s => s.globalId == (sites.getD i defaultSite).globalId) :=
    List.mem_filter.mpr ⟨hsimem, hpred⟩
  have hesi : e = si := by
    rw [hfe] at hsifil
    exact (List.mem_singleton.mp hsifil).symm
  rw [hesi] at hfe
  have hfind : (areas.find? (fun a => w si.geom a.geom)).map ScoutingArea.id
      = some "north" := by
    have hcong : areas.find? (fun a => w si.geom a.geom)
        = areas.find? (fun a => a.id == "north") := find?_congr areas _ _ hw
    obtain ⟨a0, ha0mem, ha0id⟩ := hnorth
    have hsome : (areas.find? (fun a => a.id == "north")).isSome = true :=
      List.find?_isSome.mpr ⟨a0, ha0mem, beq_iff_eq.mpr ha0id⟩
    obtain ⟨a1, ha1⟩ : ∃ a1, areas.find? (fun a => a.id == "north") = some a1 :=
      Option.isSome_iff_exists.mp hsome
    have hpa : (a1.id == "north") = true :=
      @List.find?_some _ (fun a => a.id == "north") a1 areas ha1
    have ha1id : a1.id = "north" := beq_iff_eq.mp hpa
    rw [hcong, ha1]
    simp [ha1id]
  have hveq := verify_trapping_area_eq w sites areas cache i si hfe
  have hv : verify_trapping_area w sites areas cache i = .ok (false, some "north") := by
    rw [hveq, hfind, hrow, harea]
    rfl
  refine ⟨hv, ?_⟩
  have hsplit : List.range sites.length
      = List.range' 0 i ++ (i :: List.range' (i + 1) (sites.length - i - 1)) := by
    rw [List.range_eq_range']
    have h1 : List.range' 0 i ++ List.range' (0 + 1 * i) (sites.length - i)
        = List.range' 0 (sites.length - i + i) := List.range'_append 0 i (sites.length - i) 1
    have h2 : sites.length - i + i = sites.length := by omega
    rw [h2] at h1
    rw [← h1]
    have h3 : sites.length - i = (sites.length - i - 1) + 1 := by omega
    have h5 : 0 + 1 * i = i := by omega
    have h6 := List.range'_succ i (sites.length - i - 1) 1
    rw [← h3] at h6
    rw [h5, h6]
  have hbound1 : ∀ j ∈ List.range' 0 i, j < sites.length := by
    intro j hj
    obtain ⟨ii, hii, rfl⟩ := List.mem_range'.mp hj
    omega
  obtain ⟨sitesA, cacheA, hgoA, hprojA, hframeA⟩ :=
    correct_go_spec w areas sites huniq (List.range' 0 i) sites cache rfl hbound1
  have hnotin1 : i ∉ List.range' 0 i := by
    intro hc
    obtain ⟨ii, hii, hvv⟩ := List.mem_range'.mp hc
    omega
  have hAi : sitesA[i]? = some si := by
    rw [hframeA i hnotin1, hsi]
  have hrowA : sitesA.getD i defaultSite = si :=
    getD_eq_of_getElem? sitesA i defaultSite si hAi
  obtain ⟨e2, hfe2, hk2⟩ := filter_singleton_transfer
    ((sites.getD i defaultSite).globalId) sites sitesA hprojA.symm si hfe
  have hgidA : (sitesA.getD i defaultSite).globalId
      = (sites.getD i defaultSite).globalId :=
    congrArg Prod.fst (getD_key_eq sitesA sites hprojA i)
  have hfe3 : sitesA.filter
      (fun s => s.globalId == (sitesA.getD i defaultSite).globalId) = [e2] := by
    rw [hgidA]
    exact hfe2
  have hgeom2 : e2.geom = si.geom := congrArg Prod.snd hk2
  have hveqA := verify_trapping_area_eq w sitesA areas cacheA i e2 hfe3
  have hvA : verify_trapping_area w sitesA areas cacheA i = .ok (false, some "north") := by
    rw [hveqA, hgeom2, hfind, hrowA, harea]
    rfl
  have hstep : correct_trapping_areas_go w areas
      (i :: List.range' (i + 1) (sites.length - i - 1)) sitesA cacheA
      = correct_trapping_areas_go w areas (List.range' (i + 1) (sites.length - i - 1))
          (sitesA.set i { sitesA.getD i defaultSite with area := some "north" })
          (some "north") := by
    rw [correct_go_cons, hvA]
  have hprojB : (sitesA.set i
      { sitesA.getD i defaultSite with area := some "north" }).map siteKey
      = sites.map siteKey := by
    rw [map_siteKey_set sitesA i
      { sitesA.getD i defaultSite with area := some "north" } rfl]
    exact hprojA
  have hbound2 : ∀ j ∈ List.range' (i + 1) (sites.length - i - 1), j < sites.length := by
    intro j hj
    obtain ⟨ii, hii, rfl⟩ := List.mem_range'.mp hj
    omega
  obtain ⟨sites1, cache1, hgo2, hproj1, hframe2⟩ :=
    correct_go_spec w areas sites huniq (List.range' (i + 1) (sites.length - i - 1))
      (sitesA.set i { sitesA.getD i defaultSite with area := some "north" })
      (some "north") hprojB hbound2
  have hnotin2 : i ∉ List.range' (i + 1) (sites.length - i - 1) := by
    intro hc
    obtain ⟨ii, hii, hvv⟩ := List.mem_range'.mp hc
    omega
  have hlenA : sitesA.length = sites.length := by
    rw [← List.length_map sitesA siteKey, hprojA, List.length_map]
  have hBi : (sitesA.set i
      { sitesA.getD i defaultSite with area := some "north" })[i]?
      = some { si with area := some "north" } := by
    rw [hrowA, List.getElem?_set_eq (by omega)]
  have h1i : sites1[i]? = some { si with area := some "north" } := by
    rw [hframe2 i hnotin2, hBi]
  refine ⟨sites1, cache1, ?_, h1i⟩
  unfold correct_trapping_areas
  rw [hsplit, correct_go_append, hgoA]
  show correct_trapping_areas_go w areas
      (i :: List.range' (i + 1) (sites.length - i - 1)) sitesA cacheA
      = .ok (sites1, cache1)
  rw [hstep]
  exact hgo2

/-- C10, witness: the single site labelled `south` inside the single
scouting area `north` fails verification and is corrected to `north`. -/
theorem verify_and_correct_north_witness :
    verify_trapping_area wNorthOnly [siteSouth] [areaNorth] none 0
        = .ok (false, some "north")
      ∧ ∃ sites1 cache1,
          correct_trapping_areas wNorthOnly [siteSouth] [areaNorth] none
              = .ok (sites1, cache1)
            ∧ sites1[0]? = some { siteSouth with area := some "north" } :=
  verify_and_correct_north wNorthOnly [siteSouth] [areaNorth] none 0 siteSouth "G1"
    rfl rfl rfl
    (by
      intro j hj
      have hj1 : j < 1 := by simpa using hj
      have hj0 : j = 0 := by omega
      subst hj0
      exact ⟨siteSouth, rfl⟩)
    (by
      intro a ha
      have ha0 : a = areaNorth := by simpa using ha
      subst ha0
      rfl)
    ⟨areaNorth, by simp, rfl⟩

end EbirdManager
